import Mathlib

/-!
# Monaco editor facade (`web-common/src/Monaco.js`)

A shallow embedding of the JavaScript binding layer over the Monaco editor.

* Numeric codes (marker severities, completion item kinds) are `Int`.
* Values the facade only forwards are `JSVal`.
* The wrapped library, the objects it hands out (editors, models, disposables)
  and the globals the module reads are not part of the module. Every call the
  module makes on them is a field of the record `Monaco σ ω`, a state
  transformer on the library state `σ` that returns the call result. Callbacks
  handed to the library act on the caller state `ω`.
* The browser window is the structure `Page`: the library state together with
  the resize listeners registered so far.
* A call is taken to return normally; a library call that throws aborts the
  facade function at that point and is outside the embedding.
-/

namespace MonacoFacade

/-! ## Values -/

/-- JavaScript values that the facade passes through without inspecting them. -/
inductive JSVal where
  | undefined
  | bool (b : Bool)
  | num (n : Int)
  | str (s : String)
  | obj (ref : Nat)
deriving DecidableEq, Repr

/-- An editor instance handed out by the library. -/
structure Editor where
  ref : Nat
deriving DecidableEq, Repr

/-- A text model; `uri` is the property read by `getModelMarkers_`. -/
structure Model where
  ref : Nat
  uri : String
deriving DecidableEq, Repr

/-- A theme as the caller passes it: `theme.name` and `theme.themeData`. -/
structure Theme where
  name : JSVal
  themeData : JSVal
deriving DecidableEq, Repr

/-- Marker data as the caller supplies it (severity, range, message). -/
structure MarkerData where
  severity : Int
  message : String
  startLineNumber : Nat
  startColumn : Nat
  endLineNumber : Nat
  endColumn : Nat
deriving DecidableEq, Repr

/-- A marker as the library reports it: the data tagged with owner and resource. -/
structure Marker where
  owner : String
  resource : String
  data : MarkerData
deriving DecidableEq, Repr

/-- The object literal `{ resource: model.uri }` of `getModelMarkers_`. -/
structure MarkerFilter where
  resource : String
deriving DecidableEq, Repr

/-- The object literal `{ language: languageId, minimap: { enabled: false } }` of `create_`. -/
structure EditorOptions where
  language : JSVal
  minimapEnabled : Bool
deriving DecidableEq, Repr

/-- The object literal `{ readOnly: val }` of `setReadOnly_`. -/
structure UpdateOptions where
  readOnly : JSVal
deriving DecidableEq, Repr

/-- A JavaScript object used as a string-keyed record: keys in insertion order. -/
abbrev JSObject := List (String × JSVal)

/-- Property read `o[k]`: the value of the first entry with key `k`. -/
def JSObject.get : JSObject → String → Option JSVal
  | [], _ => none
  | (k, v) :: rest, key => if k = key then some v else JSObject.get rest key

/-- Property assignment `o[k] = v`: overwrite the entry in place, or append a new one. -/
def JSObject.assign : JSObject → String → JSVal → JSObject
  | [], key, v => [(key, v)]
  | (k, w) :: rest, key, v =>
    if k = key then (k, v) :: rest else (k, w) :: JSObject.assign rest key v

/-- A zero-argument effectful function on the state `τ`. -/
abbrev Effect (τ : Type) := τ → JSVal × τ

/-- A content-change handler in the curried convention: `handler(event)` yields
a zero-argument function, which is then called. -/
abbrev Handler (ω : Type) := JSVal → ω → Effect ω × ω

/-! ## The wrapped library -/

/-- Every call the module makes on the library, on objects the library handed
out, and on globals, as a transformer of the library state `σ`. Field names
follow the JavaScript access path. Decoration ids are numbers here; the
library issues strings, which the module never inspects. -/
structure Monaco (σ ω : Type) where
  global_monaco : σ → JSVal
  global_monacoExtraTypeScriptLibs : σ → List (JSVal × JSVal)
  global_initVimMode : Editor → JSVal → σ → JSVal × σ
  global_newEmacsExtension : Editor → σ → JSVal × σ
  document_getElementById : String → σ → JSVal × σ
  languages_register : JSVal → σ → JSVal × σ
  languages_setMonarchTokensProvider : JSVal → JSVal → σ → JSVal × σ
  languages_setTokensProvider : JSVal → JSVal → σ → JSVal × σ
  languages_registerHoverProvider : JSVal → JSVal → σ → JSVal × σ
  languages_registerCompletionItemProvider : JSVal → JSVal → σ → JSVal × σ
  languages_registerCodeActionProvider : JSVal → JSVal → σ → JSVal × σ
  languages_registerDocumentFormattingEditProvider : JSVal → JSVal → σ → JSVal × σ
  languages_CompletionItemKind : String → σ → JSVal
  MarkerSeverity : String → σ → JSVal
  typescriptDefaults_addExtraLib : JSVal → JSVal → σ → JSVal × σ
  typescriptDefaults_getCompilerOptions : σ → JSObject × σ
  typescriptDefaults_setCompilerOptions : JSObject → σ → JSVal × σ
  editor_defineTheme : JSVal → JSVal → σ → JSVal × σ
  editor_setTheme : JSVal → σ → JSVal × σ
  editor_setModelMarkers : Model → String → List MarkerData → σ → JSVal × σ
  editor_getModelMarkers : MarkerFilter → σ → List Marker × σ
  editor_create : JSVal → EditorOptions → σ → Editor × σ
  getModel : Editor → σ → Model × σ
  getId : Editor → σ → JSVal × σ
  getDecorationRange : Editor → JSVal → σ → JSVal × σ
  deltaDecorations : Editor → List Nat → List JSVal → σ → List Nat × σ
  setPosition : Editor → JSVal → σ → JSVal × σ
  revealRange : Editor → JSVal → σ → JSVal × σ
  revealRangeInCenter : Editor → JSVal → σ → JSVal × σ
  revealRangeAtTop : Editor → JSVal → σ → JSVal × σ
  revealRangeNearTop : Editor → JSVal → σ → JSVal × σ
  revealLine : Editor → JSVal → σ → JSVal × σ
  layout : Editor → σ → JSVal × σ
  focus : Editor → σ → JSVal × σ
  updateOptions : Editor → UpdateOptions → σ → JSVal × σ
  model_onDidChangeContent : Model → (JSVal → Effect ω) → σ → JSVal × σ
  model_getValue : Model → σ → JSVal × σ
  model_setValue : Model → JSVal → σ → JSVal × σ
  model_getLineCount : Model → σ → JSVal × σ
  vimMode_dispose : JSVal → σ → JSVal × σ
  emacsMode_start : JSVal → σ → JSVal × σ
  emacsMode_dispose : JSVal → σ → JSVal × σ
  disposable_dispose : JSVal → σ → JSVal × σ

/-- The browser page: the library state and the listeners registered on the
window for the resize event, oldest first. -/
structure Page (σ : Type) where
  lib : σ
  resizeListeners : List (Effect σ)

/-- The call `window.addEventListener(type, listener)`; only the resize event is tracked. -/
def Page.addEventListener {σ : Type} (type : String) (listener : Effect σ) (p : Page σ) :
    Page σ :=
  if type = "resize" then { p with resizeListeners := p.resizeListeners ++ [listener] } else p

/-- A resize event: the window calls every resize listener once, oldest first. -/
def Page.fireResize {σ : Type} (p : Page σ) : Page σ :=
  { p with lib := p.resizeListeners.foldl (fun s listener => (listener s).2) p.lib }

/-! ## The exported functions, in source order -/

section Facade

variable {σ ω : Type}

/-- Source lines 6-8: `return severity == 4`. -/
def isWarning_ (severity : Int) : Bool :=
  severity == 4

/-- Source lines 10-12: `return severity == 8`. -/
def isError_ (severity : Int) : Bool :=
  severity == 8

/-- Source lines 14-16. -/
def getMonaco (monaco : Monaco σ ω) (s : σ) : JSVal × σ :=
  (monaco.global_monaco s, s)

/-- Source lines 18-20: the result of `register` is dropped. -/
def registerLanguage_ (monaco : Monaco σ ω) (language : JSVal) (s : σ) : JSVal × σ :=
  let (_, s1) := monaco.languages_register language s
  (JSVal.undefined, s1)

/-- Source lines 22-24: the result of `defineTheme` is dropped. -/
def defineTheme_ (monaco : Monaco σ ω) (theme : Theme) (s : σ) : JSVal × σ :=
  let (_, s1) := monaco.editor_defineTheme theme.name theme.themeData s
  (JSVal.undefined, s1)

/-- Source lines 26-28. -/
def setMonarchTokensProvider_ (monaco : Monaco σ ω) (languageId languageDef : JSVal) (s : σ) :
    JSVal × σ :=
  monaco.languages_setMonarchTokensProvider languageId languageDef s

/-- Source lines 30-32. -/
def setModelMarkers_ (monaco : Monaco σ ω) (model : Model) (owner : String)
    (markers : List MarkerData) (s : σ) : JSVal × σ :=
  let (_, s1) := monaco.editor_setModelMarkers model owner markers s
  (JSVal.undefined, s1)

/-- Source lines 34-36. -/
def getModelMarkers_ (monaco : Monaco σ ω) (model : Model) (s : σ) : List Marker × σ :=
  monaco.editor_getModelMarkers { resource := model.uri } s

/-- The closure `function () { editor.layout(); }` built by `create_`. -/
def resizeListener (monaco : Monaco σ ω) (editor : Editor) : Effect σ :=
  fun s =>
    let (_, s1) := monaco.layout editor s
    (JSVal.undefined, s1)

/-- Source lines 38-51. -/
def create_ (monaco : Monaco σ ω) (nodeId languageId : JSVal) (p : Page σ) : Editor × Page σ :=
  let (editor, s1) :=
    monaco.editor_create nodeId { language := languageId, minimapEnabled := false } p.lib
  let p1 := Page.addEventListener "resize" (resizeListener monaco editor) { p with lib := s1 }
  (editor, p1)

/-- Source lines 53-55. -/
def setTheme_ (monaco : Monaco σ ω) (themeName : JSVal) (s : σ) : JSVal × σ :=
  let (_, s1) := monaco.editor_setTheme themeName s
  (JSVal.undefined, s1)

/-- The closure `function (event) { handler(event)(); }` built by `onDidChangeContent_`. -/
def changeListener (handler : Handler ω) : JSVal → Effect ω :=
  fun event u =>
    let (thunk, u1) := handler event u
    let (_, u2) := thunk u1
    (JSVal.undefined, u2)

/-- Source lines 57-61. -/
def onDidChangeContent_ (monaco : Monaco σ ω) (editor : Editor) (handler : Handler ω) (s : σ) :
    JSVal × σ :=
  let (model, s1) := monaco.getModel editor s
  let (_, s2) := monaco.model_onDidChangeContent model (changeListener handler) s1
  (JSVal.undefined, s2)

/-- Source lines 63-67: `forEach` over the global list, one `addExtraLib` per pair. -/
def addExtraTypeScriptLibsJS_ (monaco : Monaco σ ω) (s : σ) : JSVal × σ :=
  let s1 := (monaco.global_monacoExtraTypeScriptLibs s).foldl
    (fun acc lib => (monaco.typescriptDefaults_addExtraLib lib.1 lib.2 acc).2) s
  (JSVal.undefined, s1)

/-- Source lines 69-73. -/
def setStrictNullChecks_ (monaco : Monaco σ ω) (bool : JSVal) (s : σ) : JSVal × σ :=
  let (compilerOptions, s1) := monaco.typescriptDefaults_getCompilerOptions s
  let compilerOptions1 := JSObject.assign compilerOptions "strictNullChecks" bool
  let (_, s2) := monaco.typescriptDefaults_setCompilerOptions compilerOptions1 s1
  (JSVal.undefined, s2)

/-- Source lines 75-77. -/
def getDecorationRange_ (monaco : Monaco σ ω) (editor : Editor) (identifier : JSVal) (s : σ) :
    JSVal × σ :=
  monaco.getDecorationRange editor identifier s

/-- Source lines 79-81. -/
def setDeltaDecorations_ (monaco : Monaco σ ω) (editor : Editor) (oldDecorations : List Nat)
    (newDecorations : List JSVal) (s : σ) : List Nat × σ :=
  monaco.deltaDecorations editor oldDecorations newDecorations s

/-- Source lines 83-85. -/
def getModel_ (monaco : Monaco σ ω) (editor : Editor) (s : σ) : Model × σ :=
  monaco.getModel editor s

/-- Source lines 87-89. -/
def getEditorId_ (monaco : Monaco σ ω) (editor : Editor) (s : σ) : JSVal × σ :=
  monaco.getId editor s

/-- Source lines 91-93. -/
def getValue_ (monaco : Monaco σ ω) (model : Model) (s : σ) : JSVal × σ :=
  monaco.model_getValue model s

/-- Source lines 95-97. -/
def setValue_ (monaco : Monaco σ ω) (model : Model) (value : JSVal) (s : σ) : JSVal × σ :=
  monaco.model_setValue model value s

/-- Source lines 99-101. -/
def getLineCount_ (monaco : Monaco σ ω) (model : Model) (s : σ) : JSVal × σ :=
  monaco.model_getLineCount model s

/-- Source lines 103-105. -/
def setTokensProvider_ (monaco : Monaco σ ω) (languageId provider : JSVal) (s : σ) : JSVal × σ :=
  monaco.languages_setTokensProvider languageId provider s

/-- Source lines 107-109. -/
def completionItemKind_ (monaco : Monaco σ ω) (name : String) (s : σ) : JSVal × σ :=
  (monaco.languages_CompletionItemKind name s, s)

/-- Source lines 111-113. -/
def markerSeverity_ (monaco : Monaco σ ω) (name : String) (s : σ) : JSVal × σ :=
  (monaco.MarkerSeverity name s, s)

/-- Source lines 115-117. -/
def registerHoverProvider_ (monaco : Monaco σ ω) (languageId provider : JSVal) (s : σ) :
    JSVal × σ :=
  monaco.languages_registerHoverProvider languageId provider s

/-- Source lines 119-121. -/
def registerCompletionItemProvider_ (monaco : Monaco σ ω) (languageId provider : JSVal) (s : σ) :
    JSVal × σ :=
  monaco.languages_registerCompletionItemProvider languageId provider s

/-- Source lines 123-125. -/
def registerCodeActionProvider_ (monaco : Monaco σ ω) (languageId actionProvider : JSVal)
    (s : σ) : JSVal × σ :=
  monaco.languages_registerCodeActionProvider languageId actionProvider s

/-- Source lines 127-129. -/
def registerDocumentFormattingEditProvider_ (monaco : Monaco σ ω) (languageId formatter : JSVal)
    (s : σ) : JSVal × σ :=
  monaco.languages_registerDocumentFormattingEditProvider languageId formatter s

/-- Source lines 131-133. -/
def setPosition_ (monaco : Monaco σ ω) (editor : Editor) (position : JSVal) (s : σ) : JSVal × σ :=
  let (_, s1) := monaco.setPosition editor position s
  (JSVal.undefined, s1)

/-- Source lines 135-137. -/
def revealRange_ (monaco : Monaco σ ω) (editor : Editor) (range : JSVal) (s : σ) : JSVal × σ :=
  let (_, s1) := monaco.revealRange editor range s
  (JSVal.undefined, s1)

/-- Source lines 139-141. -/
def revealRangeInCenter_ (monaco : Monaco σ ω) (editor : Editor) (range : JSVal) (s : σ) :
    JSVal × σ :=
  let (_, s1) := monaco.revealRangeInCenter editor range s
  (JSVal.undefined, s1)

/-- Source lines 143-145. -/
def revealRangeAtTop_ (monaco : Monaco σ ω) (editor : Editor) (range : JSVal) (s : σ) :
    JSVal × σ :=
  let (_, s1) := monaco.revealRangeAtTop editor range s
  (JSVal.undefined, s1)

/-- Source lines 147-149. -/
def revealRangeNearTop_ (monaco : Monaco σ ω) (editor : Editor) (range : JSVal) (s : σ) :
    JSVal × σ :=
  let (_, s1) := monaco.revealRangeNearTop editor range s
  (JSVal.undefined, s1)

/-- Source lines 151-153. -/
def revealLine_ (monaco : Monaco σ ω) (editor : Editor) (lineNumber : JSVal) (s : σ) :
    JSVal × σ :=
  let (_, s1) := monaco.revealLine editor lineNumber s
  (JSVal.undefined, s1)

/-- Source lines 155-157. -/
def layout_ (monaco : Monaco σ ω) (editor : Editor) (s : σ) : JSVal × σ :=
  let (_, s1) := monaco.layout editor s
  (JSVal.undefined, s1)

/-- Source lines 159-161. -/
def focus_ (monaco : Monaco σ ω) (editor : Editor) (s : σ) : JSVal × σ :=
  let (_, s1) := monaco.focus editor s
  (JSVal.undefined, s1)

/-- Source lines 163-167: the result is the closure `() => vimMode.dispose()`. -/
def enableVimBindings_ (monaco : Monaco σ ω) (editor : Editor) (s : σ) : Effect σ × σ :=
  let (statusNode, s1) := monaco.document_getElementById "statusline" s
  let (vimMode, s2) := monaco.global_initVimMode editor statusNode s1
  (fun t => monaco.vimMode_dispose vimMode t, s2)

/-- Source lines 169-173: the result is the closure `() => emacsMode.dispose()`. -/
def enableEmacsBindings_ (monaco : Monaco σ ω) (editor : Editor) (s : σ) : Effect σ × σ :=
  let (emacsMode, s1) := monaco.global_newEmacsExtension editor s
  let (_, s2) := monaco.emacsMode_start emacsMode s1
  (fun t => monaco.emacsMode_dispose emacsMode t, s2)

/-- Source lines 175-177: `return a == b`. -/
def completionItemKindEq_ (a b : Int) : Bool :=
  a == b

/-- Source lines 179-187. -/
def completionItemKindOrd_ {α : Type} (lt eq gt : α) (a b : Int) : α :=
  if a < b then lt
  else if a == b then eq
  else gt

/-- Source lines 189-191. -/
def setReadOnly_ (monaco : Monaco σ ω) (editor : Editor) (val : JSVal) (s : σ) : JSVal × σ :=
  let (_, s1) := monaco.updateOptions editor { readOnly := val } s
  (JSVal.undefined, s1)

/-- Source lines 193-195. -/
def dispose_ (monaco : Monaco σ ω) (disposable : JSVal) (s : σ) : JSVal × σ :=
  let (_, s1) := monaco.disposable_dispose disposable s
  (JSVal.undefined, s1)

end Facade

/-! ## Sequences of facade calls on a page -/

/-- One call of an exported function, with its arguments. -/
inductive FacadeOp (ω : Type) where
  | isWarning (severity : Int)
  | isError (severity : Int)
  | getMonaco
  | registerLanguage (language : JSVal)
  | defineTheme (theme : Theme)
  | setMonarchTokensProvider (languageId languageDef : JSVal)
  | setModelMarkers (model : Model) (owner : String) (markers : List MarkerData)
  | getModelMarkers (model : Model)
  | create (nodeId languageId : JSVal)
  | setTheme (themeName : JSVal)
  | onDidChangeContent (editor : Editor) (handler : Handler ω)
  | addExtraTypeScriptLibsJS
  | setStrictNullChecks (bool : JSVal)
  | getDecorationRange (editor : Editor) (identifier : JSVal)
  | setDeltaDecorations (editor : Editor) (oldDecorations : List Nat) (newDecorations : List JSVal)
  | getModel (editor : Editor)
  | getEditorId (editor : Editor)
  | getValue (model : Model)
  | setValue (model : Model) (value : JSVal)
  | getLineCount (model : Model)
  | setTokensProvider (languageId provider : JSVal)
  | completionItemKind (name : String)
  | markerSeverity (name : String)
  | registerHoverProvider (languageId provider : JSVal)
  | registerCompletionItemProvider (languageId provider : JSVal)
  | registerCodeActionProvider (languageId actionProvider : JSVal)
  | registerDocumentFormattingEditProvider (languageId formatter : JSVal)
  | setPosition (editor : Editor) (position : JSVal)
  | revealRange (editor : Editor) (range : JSVal)
  | revealRangeInCenter (editor : Editor) (range : JSVal)
  | revealRangeAtTop (editor : Editor) (range : JSVal)
  | revealRangeNearTop (editor : Editor) (range : JSVal)
  | revealLine (editor : Editor) (lineNumber : JSVal)
  | layout (editor : Editor)
  | focus (editor : Editor)
  | enableVimBindings (editor : Editor)
  | enableEmacsBindings (editor : Editor)
  | completionItemKindEq (a b : Int)
  | completionItemKindOrd (a b : Int)
  | setReadOnly (editor : Editor) (val : JSVal)
  | dispose (disposable : JSVal)

/-- Run a library-state transformer on the page, keeping the new state only.
The listeners of the window are not part of the library state: the closures
`create_` registers are referenced by the window alone. -/
def Page.onLib {σ α : Type} (f : σ → α × σ) (p : Page σ) : Page σ :=
  { p with lib := (f p.lib).2 }

/-- The page after one facade call. -/
def FacadeOp.run {σ ω : Type} (monaco : Monaco σ ω) : FacadeOp ω → Page σ → Page σ
  | .isWarning _, p => p
  | .isError _, p => p
  | .getMonaco, p => p.onLib (MonacoFacade.getMonaco monaco)
  | .registerLanguage language, p => p.onLib (registerLanguage_ monaco language)
  | .defineTheme theme, p => p.onLib (defineTheme_ monaco theme)
  | .setMonarchTokensProvider l d, p => p.onLib (setMonarchTokensProvider_ monaco l d)
  | .setModelMarkers model owner markers, p =>
    p.onLib (setModelMarkers_ monaco model owner markers)
  | .getModelMarkers model, p => p.onLib (getModelMarkers_ monaco model)
  | .create nodeId languageId, p => (create_ monaco nodeId languageId p).2
  | .setTheme themeName, p => p.onLib (setTheme_ monaco themeName)
  | .onDidChangeContent editor handler, p => p.onLib (onDidChangeContent_ monaco editor handler)
  | .addExtraTypeScriptLibsJS, p => p.onLib (addExtraTypeScriptLibsJS_ monaco)
  | .setStrictNullChecks bool, p => p.onLib (setStrictNullChecks_ monaco bool)
  | .getDecorationRange editor identifier, p =>
    p.onLib (getDecorationRange_ monaco editor identifier)
  | .setDeltaDecorations editor o n, p => p.onLib (setDeltaDecorations_ monaco editor o n)
  | .getModel editor, p => p.onLib (getModel_ monaco editor)
  | .getEditorId editor, p => p.onLib (getEditorId_ monaco editor)
  | .getValue model, p => p.onLib (getValue_ monaco model)
  | .setValue model value, p => p.onLib (setValue_ monaco model value)
  | .getLineCount model, p => p.onLib (getLineCount_ monaco model)
  | .setTokensProvider l provider, p => p.onLib (setTokensProvider_ monaco l provider)
  | .completionItemKind name, p => p.onLib (completionItemKind_ monaco name)
  | .markerSeverity name, p => p.onLib (markerSeverity_ monaco name)
  | .registerHoverProvider l provider, p => p.onLib (registerHoverProvider_ monaco l provider)
  | .registerCompletionItemProvider l provider, p =>
    p.onLib (registerCompletionItemProvider_ monaco l provider)
  | .registerCodeActionProvider l provider, p =>
    p.onLib (registerCodeActionProvider_ monaco l provider)
  | .registerDocumentFormattingEditProvider l formatter, p =>
    p.onLib (registerDocumentFormattingEditProvider_ monaco l formatter)
  | .setPosition editor position, p => p.onLib (setPosition_ monaco editor position)
  | .revealRange editor range, p => p.onLib (revealRange_ monaco editor range)
  | .revealRangeInCenter editor range, p => p.onLib (revealRangeInCenter_ monaco editor range)
  | .revealRangeAtTop editor range, p => p.onLib (revealRangeAtTop_ monaco editor range)
  | .revealRangeNearTop editor range, p => p.onLib (revealRangeNearTop_ monaco editor range)
  | .revealLine editor lineNumber, p => p.onLib (revealLine_ monaco editor lineNumber)
  | .layout editor, p => p.onLib (layout_ monaco editor)
  | .focus editor, p => p.onLib (focus_ monaco editor)
  | .enableVimBindings editor, p => p.onLib (enableVimBindings_ monaco editor)
  | .enableEmacsBindings editor, p => p.onLib (enableEmacsBindings_ monaco editor)
  | .completionItemKindEq _ _, p => p
  | .completionItemKindOrd _ _, p => p
  | .setReadOnly editor val, p => p.onLib (setReadOnly_ monaco editor val)
  | .dispose disposable, p => p.onLib (dispose_ monaco disposable)

/-- What can happen on the page: a facade call, the caller running a closure
that `enableVimBindings_` or `enableEmacsBindings_` returned, or the window
dispatching a resize event. -/
inductive PageStep (σ ω : Type) where
  | call (op : FacadeOp ω)
  | runClosure (closure : Effect σ)
  | resize

/-- The page after one step. -/
def PageStep.run {σ ω : Type} (monaco : Monaco σ ω) : PageStep σ ω → Page σ → Page σ
  | .call op, p => op.run monaco p
  | .runClosure closure, p => p.onLib closure
  | .resize, p => p.fireResize

/-- The page after a sequence of steps, first step first. -/
def runSteps {σ ω : Type} (monaco : Monaco σ ω) : List (PageStep σ ω) → Page σ → Page σ
  | [], p => p
  | step :: rest, p => runSteps monaco rest (step.run monaco p)

/-- Whether a step is a call of `create_`. -/
def PageStep.isCreate {σ ω : Type} : PageStep σ ω → Bool
  | .call (.create _ _) => true
  | _ => false

/-- The number of `create_` calls in a sequence of steps. -/
def createCalls {σ ω : Type} (steps : List (PageStep σ ω)) : Nat :=
  (steps.filter PageStep.isCreate).length

/-- The editors returned by the `create_` calls of a sequence of steps, in call order. -/
def createdEditors {σ ω : Type} (monaco : Monaco σ ω) : List (PageStep σ ω) → Page σ → List Editor
  | [], _ => []
  | .call (.create nodeId languageId) :: rest, p =>
    (create_ monaco nodeId languageId p).1 ::
      createdEditors monaco rest ((create_ monaco nodeId languageId p).2)
  | step :: rest, p => createdEditors monaco rest (step.run monaco p)

/-- A fresh page: the library in state `s` and no resize listener registered. -/
def Page.fresh {σ : Type} (s : σ) : Page σ :=
  { lib := s, resizeListeners := [] }

/-! ## Library instances -/

/-- A library in which every call returns `undefined` (or an empty result) and
leaves the state alone; the instances below override the calls they describe. -/
def inertMonaco {σ ω : Type} : Monaco σ ω where
  global_monaco := fun _ => JSVal.undefined
  global_monacoExtraTypeScriptLibs := fun _ => []
  global_initVimMode := fun _ _ s => (JSVal.undefined, s)
  global_newEmacsExtension := fun _ s => (JSVal.undefined, s)
  document_getElementById := fun _ s => (JSVal.undefined, s)
  languages_register := fun _ s => (JSVal.undefined, s)
  languages_setMonarchTokensProvider := fun _ _ s => (JSVal.undefined, s)
  languages_setTokensProvider := fun _ _ s => (JSVal.undefined, s)
  languages_registerHoverProvider := fun _ _ s => (JSVal.undefined, s)
  languages_registerCompletionItemProvider := fun _ _ s => (JSVal.undefined, s)
  languages_registerCodeActionProvider := fun _ _ s => (JSVal.undefined, s)
  languages_registerDocumentFormattingEditProvider := fun _ _ s => (JSVal.undefined, s)
  languages_CompletionItemKind := fun _ _ => JSVal.undefined
  MarkerSeverity := fun _ _ => JSVal.undefined
  typescriptDefaults_addExtraLib := fun _ _ s => (JSVal.undefined, s)
  typescriptDefaults_getCompilerOptions := fun s => ([], s)
  typescriptDefaults_setCompilerOptions := fun _ s => (JSVal.undefined, s)
  editor_defineTheme := fun _ _ s => (JSVal.undefined, s)
  editor_setTheme := fun _ s => (JSVal.undefined, s)
  editor_setModelMarkers := fun _ _ _ s => (JSVal.undefined, s)
  editor_getModelMarkers := fun _ s => ([], s)
  editor_create := fun _ _ s => ({ ref := 0 }, s)
  getModel := fun editor s => ({ ref := editor.ref, uri := "" }, s)
  getId := fun _ s => (JSVal.undefined, s)
  getDecorationRange := fun _ _ s => (JSVal.undefined, s)
  deltaDecorations := fun _ _ _ s => ([], s)
  setPosition := fun _ _ s => (JSVal.undefined, s)
  revealRange := fun _ _ s => (JSVal.undefined, s)
  revealRangeInCenter := fun _ _ s => (JSVal.undefined, s)
  revealRangeAtTop := fun _ _ s => (JSVal.undefined, s)
  revealRangeNearTop := fun _ _ s => (JSVal.undefined, s)
  revealLine := fun _ _ s => (JSVal.undefined, s)
  layout := fun _ s => (JSVal.undefined, s)
  focus := fun _ s => (JSVal.undefined, s)
  updateOptions := fun _ _ s => (JSVal.undefined, s)
  model_onDidChangeContent := fun _ _ s => (JSVal.undefined, s)
  model_getValue := fun _ s => (JSVal.undefined, s)
  model_setValue := fun _ _ s => (JSVal.undefined, s)
  model_getLineCount := fun _ s => (JSVal.undefined, s)
  vimMode_dispose := fun _ s => (JSVal.undefined, s)
  emacsMode_start := fun _ s => (JSVal.undefined, s)
  emacsMode_dispose := fun _ s => (JSVal.undefined, s)
  disposable_dispose := fun _ s => (JSVal.undefined, s)

/-- A library whose state counts the handles issued so far and in which each of
the eight registration calls returns a fresh disposable handle `obj n`. -/
def handleMonaco : Monaco Nat Unit :=
  { (inertMonaco : Monaco Nat Unit) with
    languages_register := fun _ n => (JSVal.obj n, n + 1)
    editor_defineTheme := fun _ _ n => (JSVal.obj n, n + 1)
    languages_setMonarchTokensProvider := fun _ _ n => (JSVal.obj n, n + 1)
    languages_setTokensProvider := fun _ _ n => (JSVal.obj n, n + 1)
    languages_registerHoverProvider := fun _ _ n => (JSVal.obj n, n + 1)
    languages_registerCompletionItemProvider := fun _ _ n => (JSVal.obj n, n + 1)
    languages_registerCodeActionProvider := fun _ _ n => (JSVal.obj n, n + 1)
    languages_registerDocumentFormattingEditProvider := fun _ _ n => (JSVal.obj n, n + 1) }

/-- A library whose state is the number of editors created and the log of
editors laid out so far, newest last; editors are numbered in creation order. -/
def layoutLogMonaco : Monaco (Nat × List Nat) Unit :=
  { (inertMonaco : Monaco (Nat × List Nat) Unit) with
    editor_create := fun _ _ s => ({ ref := s.1 }, (s.1 + 1, s.2))
    layout := fun editor s => (JSVal.undefined, (s.1, s.2 ++ [editor.ref])) }

/-- Modelled from the spec: the state of the wrapped editor library, whose code
is not among the sources. It holds the marker set (sections 3 and 4.5: markers
tagged by owner, read back by resource), the TypeScript compiler options object
(section 4.3), the decorations (sections 3 and 4.5: the delta call replaces an
id set and returns fresh ids; slot `i` holds the decoration with id `i` and the
editor it belongs to, `none` once removed), the content-change listeners with
the model they were registered on (sections 4.5 and 5), and the number of
editors created. -/
structure RefState (ω : Type) where
  markers : List Marker
  compilerOptions : JSObject
  decorations : List (Option (Nat × JSVal))
  contentListeners : List (Nat × (JSVal → Effect ω))
  editors : Nat

/-- Modelled from the spec: the library state before any call (the library is
not among the sources). -/
def RefState.empty {ω : Type} : RefState ω :=
  { markers := [], compilerOptions := [], decorations := [], contentListeners := [], editors := 0 }

/-- Modelled from the spec: the library call `editor.setModelMarkers`, not among
the sources. Section 4.5: it fully replaces the marker list of the
`(model, owner)` pair; the model is identified by its resource. -/
def RefState.setModelMarkers {ω : Type} (model : Model) (owner : String)
    (markers : List MarkerData) (s : RefState ω) : JSVal × RefState ω :=
  (JSVal.undefined,
    { s with markers :=
        s.markers.filter (fun k => !(k.resource == model.uri && k.owner == owner)) ++
          markers.map (fun d => { owner := owner, resource := model.uri, data := d }) })

/-- Modelled from the spec: the library call `editor.getModelMarkers`, not among
the sources. Section 4.5: it reads back the active set for the resource. -/
def RefState.getModelMarkers {ω : Type} (filter : MarkerFilter) (s : RefState ω) :
    List Marker × RefState ω :=
  (s.markers.filter (fun k => k.resource == filter.resource), s)

/-- Modelled from the spec: removal of the decorations of editor `owner` whose
id is in `old`, part of the library call `deltaDecorations` (not among the
sources); `i` is the id of the first slot. -/
def clearSlots (owner : Nat) (old : List Nat) :
    Nat → List (Option (Nat × JSVal)) → List (Option (Nat × JSVal))
  | _, [] => []
  | i, none :: rest => none :: clearSlots owner old (i + 1) rest
  | i, some (e, d) :: rest =>
    (if e = owner ∧ i ∈ old then none else some (e, d)) :: clearSlots owner old (i + 1) rest

/-- Modelled from the spec: the library call `editor.deltaDecorations`, not
among the sources. Sections 3 and 4.5: the decorations named by the old ids are
removed, the new decorations are added, and their fresh ids are returned, one
per decoration. -/
def RefState.deltaDecorations {ω : Type} (editor : Editor) (oldDecorations : List Nat)
    (newDecorations : List JSVal) (s : RefState ω) : List Nat × RefState ω :=
  let cleared := clearSlots editor.ref oldDecorations 0 s.decorations
  (List.range' cleared.length newDecorations.length,
    { s with decorations := cleared ++ newDecorations.map (fun d => some (editor.ref, d)) })

/-- Modelled from the spec: the number of active decorations of an editor in
the library state (the library is not among the sources). -/
def RefState.activeDecorations {ω : Type} (editor : Editor) (s : RefState ω) : Nat :=
  (s.decorations.filter (fun slot =>
    match slot with
    | some (e, _) => e == editor.ref
    | none => false)).length

/-- Modelled from the spec: the library call `editor.getModel`, not among the
sources. Section 3: each editor instance has a text model behind it. -/
def RefState.getModel {ω : Type} (editor : Editor) (s : RefState ω) : Model × RefState ω :=
  ({ ref := editor.ref, uri := "inmemory://model/" ++ toString editor.ref }, s)

/-- Modelled from the spec: the library call `model.onDidChangeContent`, not
among the sources. Section 4.5: it subscribes the callback to every
content-change event of the model. -/
def RefState.onDidChangeContent {ω : Type} (model : Model) (listener : JSVal → Effect ω)
    (s : RefState ω) : JSVal × RefState ω :=
  (JSVal.undefined, { s with contentListeners := s.contentListeners ++ [(model.ref, listener)] })

/-- Modelled from the spec: the library call `editor.create`, not among the
sources; editors are numbered in creation order. -/
def RefState.create {ω : Type} (_nodeId : JSVal) (_options : EditorOptions) (s : RefState ω) :
    Editor × RefState ω :=
  ({ ref := s.editors }, { s with editors := s.editors + 1 })

/-- Modelled from the spec: the listeners subscribed to a model, oldest first
(library state, not among the sources). -/
def RefState.listenersOf {ω : Type} (model : Model) (s : RefState ω) : List (JSVal → Effect ω) :=
  (s.contentListeners.filter (fun l => l.1 == model.ref)).map (fun l => l.2)

/-- Modelled from the spec: the model emitting one content-change event
(library code, not among the sources). Sections 4.5 and 5: every subscribed
callback is called once with the event payload, one at a time. -/
def RefState.emitChange {ω : Type} (model : Model) (s : RefState ω) (event : JSVal) (u : ω) : ω :=
  (s.listenersOf model).foldl (fun acc listener => (listener event acc).2) u

/-- Modelled from the spec: the model emitting a finite sequence of
content-change events, first event first (library code, not among the sources). -/
def RefState.emitAll {ω : Type} (model : Model) (s : RefState ω) (events : List JSVal) (u : ω) :
    ω :=
  events.foldl (fun acc event => s.emitChange model event acc) u

/-- Modelled from the spec: the wrapped library as sections 3, 4.3, 4.5 and 5
describe it (its code is not among the sources); calls the spec says nothing
about are inert. -/
def refMonaco {ω : Type} : Monaco (RefState ω) ω :=
  { (inertMonaco : Monaco (RefState ω) ω) with
    typescriptDefaults_getCompilerOptions := fun s => (s.compilerOptions, s)
    typescriptDefaults_setCompilerOptions := fun o s =>
      (JSVal.undefined, { s with compilerOptions := o })
    editor_setModelMarkers := RefState.setModelMarkers
    editor_getModelMarkers := RefState.getModelMarkers
    editor_create := RefState.create
    getModel := RefState.getModel
    deltaDecorations := RefState.deltaDecorations
    model_onDidChangeContent := RefState.onDidChangeContent }

/-- A handler that records its two stages in the caller state: `(event, false)`
when `handler(event)` is evaluated and `(event, true)` when the function it
returned is called. -/
def recordingHandler : Handler (List (JSVal × Bool)) :=
  fun event log => (fun log1 => (JSVal.undefined, log1 ++ [(event, true)]), log ++ [(event, false)])

/-! ## Severity classifiers and completion-kind comparison -/

/-- C1: for every numeric severity code, `isWarning_` holds exactly for code 4
and `isError_` exactly for code 8; at 4 only `isWarning_` holds, at 8 only
`isError_`, and at every other code neither holds. -/
theorem severity_classifiers (s : Int) :
    (isWarning_ s = true ↔ s = 4) ∧ (isError_ s = true ↔ s = 8) ∧
    (isWarning_ 4 = true ∧ isError_ 4 = false) ∧
    (isError_ 8 = true ∧ isWarning_ 8 = false) ∧
    (s ≠ 4 → s ≠ 8 → isWarning_ s = false ∧ isError_ s = false) := by
  refine ⟨?_, ?_, ⟨?_, ?_⟩, ⟨?_, ?_⟩, ?_⟩
  · simp [isWarning_]
  · simp [isError_]
  · decide
  · decide
  · decide
  · decide
  · intro h4 h8
    simp [isWarning_, isError_, h4, h8]

/-- Witness for C1 at severity code 2 (the library code of Info): neither classifier holds. -/
theorem severity_classifiers_witness :
    (2 : Int) ≠ 4 ∧ (2 : Int) ≠ 8 ∧ isWarning_ 2 = false ∧ isError_ 2 = false :=
  ⟨by decide, by decide, (severity_classifiers 2).2.2.2.2 (by decide) (by decide)⟩

/-- The value `completionItemKindOrd_` returns, by the order of the two codes. -/
theorem completionItemKindOrd_cases {α : Type} (lt eq gt : α) (a b : Int) :
    (a < b → completionItemKindOrd_ lt eq gt a b = lt) ∧
    (a = b → completionItemKindOrd_ lt eq gt a b = eq) ∧
    (b < a → completionItemKindOrd_ lt eq gt a b = gt) := by
  refine ⟨?_, ?_, ?_⟩
  · intro h
    simp [completionItemKindOrd_, h]
  · intro h
    simp [completionItemKindOrd_, h]
  · intro h
    have h1 : ¬ a < b := by omega
    have h2 : ¬ a = b := by omega
    simp [completionItemKindOrd_, h1, h2]

/-- C2 as stated fails when sentinels coincide: with `lt = eq = 0` and `gt = 1`
the call on codes 1 and 2 returns the `eq` sentinel although the codes differ. -/
theorem completionItemKindOrd_shared_sentinel_counterexample :
    ¬ (completionItemKindOrd_ (0 : Nat) 0 1 1 2 = 0 ↔ (1 : Int) = 2) := by
  decide

/-- C2 (amended): for pairwise distinct sentinels `lt`, `eq`, `gt` and all codes
`a`, `b`, `completionItemKindOrd_` returns `eq` iff the codes are identical,
returns `lt` iff `a` is numerically less than `b`, and returns `gt` otherwise. -/
theorem completionItemKindOrd_distinct_sentinels {α : Type} (lt eq gt : α) (a b : Int)
    (hle : lt ≠ eq) (hlg : lt ≠ gt) (heg : eq ≠ gt) :
    (completionItemKindOrd_ lt eq gt a b = eq ↔ a = b) ∧
    (completionItemKindOrd_ lt eq gt a b = lt ↔ a < b) ∧
    (¬ a = b → ¬ a < b → completionItemKindOrd_ lt eq gt a b = gt) := by
  obtain ⟨hlt, heq, hgt⟩ := completionItemKindOrd_cases lt eq gt a b
  rcases lt_trichotomy a b with h | h | h
  · rw [hlt h]
    exact ⟨⟨fun e => absurd e hle, fun e => absurd h (by omega)⟩, ⟨fun _ => h, fun _ => rfl⟩,
      fun _ hn => absurd h hn⟩
  · rw [heq h]
    exact ⟨⟨fun _ => h, fun _ => rfl⟩, ⟨fun e => absurd e.symm hle, fun e => absurd e (by omega)⟩,
      fun hn _ => absurd h hn⟩
  · rw [hgt h]
    exact ⟨⟨fun e => absurd e.symm heg, fun e => absurd e (by omega)⟩,
      ⟨fun e => absurd e.symm hlg, fun e => absurd e (by omega)⟩, fun _ _ => rfl⟩

/-- Witness for C2 (amended) with the three values of `Ordering` as sentinels, at codes 3 and 7. -/
theorem completionItemKindOrd_distinct_sentinels_witness :
    (completionItemKindOrd_ Ordering.lt Ordering.eq Ordering.gt 3 7 = Ordering.eq ↔
      (3 : Int) = 7) ∧
    (completionItemKindOrd_ Ordering.lt Ordering.eq Ordering.gt 3 7 = Ordering.lt ↔
      (3 : Int) < 7) ∧
    (¬ (3 : Int) = 7 → ¬ (3 : Int) < 7 →
      completionItemKindOrd_ Ordering.lt Ordering.eq Ordering.gt 3 7 = Ordering.gt) :=
  completionItemKindOrd_distinct_sentinels Ordering.lt Ordering.eq Ordering.gt 3 7
    (by decide) (by decide) (by decide)

/-- C3: `completionItemKindEq_ a a` is true for every code `a`, and
`completionItemKindEq_ a b` is false whenever the codes differ. -/
theorem completionItemKindEq_spec (a b : Int) :
    completionItemKindEq_ a a = true ∧ (a ≠ b → completionItemKindEq_ a b = false) := by
  constructor
  · simp [completionItemKindEq_]
  · intro h
    simp [completionItemKindEq_, h]

/-- Witness for C3 at codes 5 and 9. -/
theorem completionItemKindEq_spec_witness :
    completionItemKindEq_ 5 5 = true ∧ completionItemKindEq_ 5 9 = false :=
  ⟨(completionItemKindEq_spec 5 9).1, (completionItemKindEq_spec 5 9).2 (by decide)⟩

/-- C4: for distinct sentinels the ordering is transitive: if the calls on
`(a, b)` and on `(b, c)` both return `lt`, so does the call on `(a, c)`, and
likewise for `gt`. -/
theorem completionItemKindOrd_transitive {α : Type} (lt eq gt : α) (a b c : Int)
    (hle : lt ≠ eq) (hlg : lt ≠ gt) (heg : eq ≠ gt) :
    (completionItemKindOrd_ lt eq gt a b = lt → completionItemKindOrd_ lt eq gt b c = lt →
      completionItemKindOrd_ lt eq gt a c = lt) ∧
    (completionItemKindOrd_ lt eq gt a b = gt → completionItemKindOrd_ lt eq gt b c = gt →
      completionItemKindOrd_ lt eq gt a c = gt) := by
  constructor
  · intro hab hbc
    have h1 : a < b := by
      rcases lt_trichotomy a b with h | h | h
      · exact h
      · rw [(completionItemKindOrd_cases lt eq gt a b).2.1 h] at hab
        exact absurd hab.symm hle
      · rw [(completionItemKindOrd_cases lt eq gt a b).2.2 h] at hab
        exact absurd hab.symm hlg
    have h2 : b < c := by
      rcases lt_trichotomy b c with h | h | h
      · exact h
      · rw [(completionItemKindOrd_cases lt eq gt b c).2.1 h] at hbc
        exact absurd hbc.symm hle
      · rw [(completionItemKindOrd_cases lt eq gt b c).2.2 h] at hbc
        exact absurd hbc.symm hlg
    exact (completionItemKindOrd_cases lt eq gt a c).1 (by omega)
  · intro hab hbc
    have h1 : b < a := by
      rcases lt_trichotomy a b with h | h | h
      · rw [(completionItemKindOrd_cases lt eq gt a b).1 h] at hab
        exact absurd hab hlg
      · rw [(completionItemKindOrd_cases lt eq gt a b).2.1 h] at hab
        exact absurd hab heg
      · exact h
    have h2 : c < b := by
      rcases lt_trichotomy b c with h | h | h
      · rw [(completionItemKindOrd_cases lt eq gt b c).1 h] at hbc
        exact absurd hbc hlg
      · rw [(completionItemKindOrd_cases lt eq gt b c).2.1 h] at hbc
        exact absurd hbc heg
      · exact h
    exact (completionItemKindOrd_cases lt eq gt a c).2.2 (by omega)

/-- Witness for C4 with the three values of `Ordering` as sentinels: the chain
of codes 1, 2, 3 for `lt` and the chain 3, 2, 1 for `gt`. -/
theorem completionItemKindOrd_transitive_witness :
    completionItemKindOrd_ Ordering.lt Ordering.eq Ordering.gt 1 3 = Ordering.lt ∧
    completionItemKindOrd_ Ordering.lt Ordering.eq Ordering.gt 3 1 = Ordering.gt :=
  ⟨(completionItemKindOrd_transitive Ordering.lt Ordering.eq Ordering.gt 1 2 3
      (by decide) (by decide) (by decide)).1 (by decide) (by decide),
   (completionItemKindOrd_transitive Ordering.lt Ordering.eq Ordering.gt 3 2 1
      (by decide) (by decide) (by decide)).2 (by decide) (by decide)⟩

/-! ## Registration calls -/

/-- C5 as stated fails for `registerLanguage_` and `defineTheme_`: on a library
whose registration calls return the handle `obj 0`, both return `undefined`. -/
theorem registration_handle_counterexample :
    (handleMonaco.languages_register (JSVal.str "purescript") 0).1 = JSVal.obj 0 ∧
    (registerLanguage_ handleMonaco (JSVal.str "purescript") 0).1 ≠
      (handleMonaco.languages_register (JSVal.str "purescript") 0).1 ∧
    (defineTheme_ handleMonaco { name := JSVal.str "dark", themeData := JSVal.obj 9 } 0).1 ≠
      (handleMonaco.editor_defineTheme (JSVal.str "dark") (JSVal.obj 9) 0).1 := by
  decide

/-- C5 (amended): `setMonarchTokensProvider_`, `setTokensProvider_`,
`registerHoverProvider_`, `registerCompletionItemProvider_`,
`registerCodeActionProvider_` and `registerDocumentFormattingEditProvider_`
return exactly what the library registration call produced (result and state);
`registerLanguage_` and `defineTheme_` make the library call and return
`undefined`, dropping what the call produced. -/
theorem registration_results {σ ω : Type} (monaco : Monaco σ ω) (languageId arg : JSVal)
    (theme : Theme) (s : σ) :
    setMonarchTokensProvider_ monaco languageId arg s =
      monaco.languages_setMonarchTokensProvider languageId arg s ∧
    setTokensProvider_ monaco languageId arg s =
      monaco.languages_setTokensProvider languageId arg s ∧
    registerHoverProvider_ monaco languageId arg s =
      monaco.languages_registerHoverProvider languageId arg s ∧
    registerCompletionItemProvider_ monaco languageId arg s =
      monaco.languages_registerCompletionItemProvider languageId arg s ∧
    registerCodeActionProvider_ monaco languageId arg s =
      monaco.languages_registerCodeActionProvider languageId arg s ∧
    registerDocumentFormattingEditProvider_ monaco languageId arg s =
      monaco.languages_registerDocumentFormattingEditProvider languageId arg s ∧
    registerLanguage_ monaco arg s = (JSVal.undefined, (monaco.languages_register arg s).2) ∧
    defineTheme_ monaco theme s =
      (JSVal.undefined, (monaco.editor_defineTheme theme.name theme.themeData s).2) :=
  ⟨rfl, rfl, rfl, rfl, rfl, rfl, rfl, rfl⟩

/-! ## Resize listeners -/

/-- A call of `create_` appends one listener, the one that lays out the editor it returns. -/
theorem create_resizeListeners {σ ω : Type} (monaco : Monaco σ ω) (nodeId languageId : JSVal)
    (p : Page σ) :
    (create_ monaco nodeId languageId p).2.resizeListeners =
      p.resizeListeners ++ [resizeListener monaco (create_ monaco nodeId languageId p).1] := by
  simp [create_, Page.addEventListener]

/-- A facade call other than `create_` leaves the resize listeners as they are. -/
theorem facadeOp_run_resizeListeners {σ ω : Type} (monaco : Monaco σ ω) (op : FacadeOp ω)
    (p : Page σ) :
    (op.run monaco p).resizeListeners =
      p.resizeListeners ++
        (createdEditors monaco [PageStep.call op] p).map (resizeListener monaco) := by
  cases op
  case create nodeId languageId =>
    simpa [FacadeOp.run, createdEditors] using create_resizeListeners monaco nodeId languageId p
  all_goals simp [FacadeOp.run, createdEditors, PageStep.run, Page.onLib]

/-- A step appends the listeners of the editors it creates and removes none. -/
theorem pageStep_run_resizeListeners {σ ω : Type} (monaco : Monaco σ ω) (step : PageStep σ ω)
    (p : Page σ) :
    (step.run monaco p).resizeListeners =
      p.resizeListeners ++ (createdEditors monaco [step] p).map (resizeListener monaco) := by
  cases step with
  | call op => exact facadeOp_run_resizeListeners monaco op p
  | runClosure closure => simp [PageStep.run, createdEditors, Page.onLib]
  | resize => simp [PageStep.run, createdEditors, Page.fireResize]

/-- The editors created by a sequence of steps: those of the first step, then those of the rest. -/
theorem createdEditors_cons {σ ω : Type} (monaco : Monaco σ ω) (step : PageStep σ ω)
    (rest : List (PageStep σ ω)) (p : Page σ) :
    createdEditors monaco (step :: rest) p =
      createdEditors monaco [step] p ++ createdEditors monaco rest (step.run monaco p) := by
  cases step with
  | call op =>
    cases op
    case create nodeId languageId => simp [createdEditors, PageStep.run, FacadeOp.run]
    all_goals simp [createdEditors]
  | runClosure closure => simp [createdEditors]
  | resize => simp [createdEditors]

/-- After any sequence of steps the resize listeners are those present at the
start followed by one layout listener per created editor, in creation order. -/
theorem runSteps_resizeListeners {σ ω : Type} (monaco : Monaco σ ω)
    (steps : List (PageStep σ ω)) (p : Page σ) :
    (runSteps monaco steps p).resizeListeners =
      p.resizeListeners ++ (createdEditors monaco steps p).map (resizeListener monaco) := by
  induction steps generalizing p with
  | nil => simp [runSteps, createdEditors]
  | cons step rest ih =>
    rw [runSteps, ih, pageStep_run_resizeListeners, createdEditors_cons monaco step rest p]
    simp

/-- One editor is created per `create_` call. -/
theorem createdEditors_length {σ ω : Type} (monaco : Monaco σ ω)
    (steps : List (PageStep σ ω)) (p : Page σ) :
    (createdEditors monaco steps p).length = createCalls steps := by
  induction steps generalizing p with
  | nil => simp [createdEditors, createCalls]
  | cons step rest ih =>
    rw [createdEditors_cons monaco step rest p, List.length_append, ih]
    cases step with
    | call op =>
      cases op
      case create nodeId languageId =>
        simp [createdEditors, createCalls, PageStep.isCreate, List.filter_cons]
        omega
      all_goals simp [createdEditors, createCalls, PageStep.isCreate, List.filter_cons]
    | runClosure closure => simp [createdEditors, createCalls, PageStep.isCreate, List.filter_cons]
    | resize => simp [createdEditors, createCalls, PageStep.isCreate, List.filter_cons]

/-- Calling the layout listeners of a list of editors lays out each editor once, in order. -/
theorem foldl_resizeListener {σ ω : Type} (monaco : Monaco σ ω) (editors : List Editor) (s : σ) :
    (editors.map (resizeListener monaco)).foldl (fun acc listener => (listener acc).2) s =
      editors.foldl (fun acc editor => (monaco.layout editor acc).2) s := by
  induction editors generalizing s with
  | nil => rfl
  | cons editor rest ih => simp [resizeListener, ih]

/-- C10: on a page that starts with no resize listener, after any sequence of
facade calls, closure calls and resize events: the number of resize listeners is
the number of `create_` calls made; the listeners are the layout listeners of
the editors those calls returned, in call order; a resize event lays out each
of these editors once; no step removes a listener (the old list is an initial
segment of the new one, also for `dispose_`); and one more `create_` call
appends exactly one listener, for the editor that call returns. -/
theorem resize_listeners_accumulate {σ ω : Type} (monaco : Monaco σ ω)
    (steps : List (PageStep σ ω)) (s0 : σ) :
    (runSteps monaco steps (Page.fresh s0)).resizeListeners.length = createCalls steps ∧
    (runSteps monaco steps (Page.fresh s0)).resizeListeners =
      (createdEditors monaco steps (Page.fresh s0)).map (resizeListener monaco) ∧
    (runSteps monaco steps (Page.fresh s0)).fireResize.lib =
      (createdEditors monaco steps (Page.fresh s0)).foldl
        (fun acc editor => (monaco.layout editor acc).2) (runSteps monaco steps (Page.fresh s0)).lib ∧
    (∀ step : PageStep σ ω,
      (runSteps monaco steps (Page.fresh s0)).resizeListeners <+:
        (step.run monaco (runSteps monaco steps (Page.fresh s0))).resizeListeners) ∧
    (∀ disposable : JSVal,
      ((FacadeOp.dispose disposable).run monaco
        (runSteps monaco steps (Page.fresh s0))).resizeListeners =
        (runSteps monaco steps (Page.fresh s0)).resizeListeners) ∧
    (∀ nodeId languageId : JSVal,
      (create_ monaco nodeId languageId (runSteps monaco steps (Page.fresh s0))).2.resizeListeners =
        (runSteps monaco steps (Page.fresh s0)).resizeListeners ++
          [resizeListener monaco
            (create_ monaco nodeId languageId (runSteps monaco steps (Page.fresh s0))).1]) := by
  have hl := runSteps_resizeListeners monaco steps (Page.fresh s0)
  simp only [Page.fresh, List.nil_append] at hl
  refine ⟨?_, ?_, ?_, ?_, ?_, ?_⟩
  · simp only [Page.fresh]
    rw [hl, List.length_map, createdEditors_length]
  · exact hl
  · simp only [Page.fresh] at *
    rw [Page.fireResize, hl, foldl_resizeListener]
  · intro step
    rw [pageStep_run_resizeListeners]
    exact List.prefix_append _ _
  · intro disposable
    simp [FacadeOp.run, Page.onLib]
  · intro nodeId languageId
    exact create_resizeListeners monaco nodeId languageId _

/-- An instance of C10 on the layout-logging library: two `create_` calls, the
disposal of a handle, then a resize event leave two listeners, and the event
lays out editors 0 and 1 once each. -/
theorem resize_listeners_accumulate_witness :
    (runSteps layoutLogMonaco
      [PageStep.call (FacadeOp.create (JSVal.str "a") (JSVal.str "purescript")),
       PageStep.call (FacadeOp.create (JSVal.str "b") (JSVal.str "purescript")),
       PageStep.call (FacadeOp.dispose (JSVal.obj 0)),
       PageStep.resize] (Page.fresh (0, []))).resizeListeners.length = 2 ∧
    (runSteps layoutLogMonaco
      [PageStep.call (FacadeOp.create (JSVal.str "a") (JSVal.str "purescript")),
       PageStep.call (FacadeOp.create (JSVal.str "b") (JSVal.str "purescript")),
       PageStep.call (FacadeOp.dispose (JSVal.obj 0)),
       PageStep.resize] (Page.fresh (0, []))).lib = (2, [0, 1]) :=
  ⟨(resize_listeners_accumulate layoutLogMonaco _ (0, [])).1, rfl⟩

/-! ## Compiler options -/

/-- Reading a key right after assigning it yields the assigned value. -/
theorem JSObject.get_assign_same (o : JSObject) (key : String) (v : JSVal) :
    JSObject.get (JSObject.assign o key v) key = some v := by
  induction o with
  | nil => simp [JSObject.assign, JSObject.get]
  | cons entry rest ih =>
    obtain ⟨k, w⟩ := entry
    by_cases h : k = key
    · simp [JSObject.assign, JSObject.get, h]
    · simp [JSObject.assign, JSObject.get, h, ih]

/-- Assigning a key leaves every other key as it was. -/
theorem JSObject.get_assign_other (o : JSObject) (key other : String) (v : JSVal)
    (h : other ≠ key) :
    JSObject.get (JSObject.assign o key v) other = JSObject.get o other := by
  induction o with
  | nil => simp [JSObject.assign, JSObject.get, Ne.symm h]
  | cons entry rest ih =>
    obtain ⟨k, w⟩ := entry
    by_cases hk : k = key
    · subst hk
      simp [JSObject.assign, JSObject.get, Ne.symm h]
    · by_cases ho : k = other
      · subst ho
        simp [JSObject.assign, JSObject.get, hk]
      · simp [JSObject.assign, JSObject.get, hk, ho, ih]

/-- Assigning the same value to the same key a second time changes nothing. -/
theorem JSObject.assign_assign (o : JSObject) (key : String) (v : JSVal) :
    JSObject.assign (JSObject.assign o key v) key v = JSObject.assign o key v := by
  induction o with
  | nil => simp [JSObject.assign]
  | cons entry rest ih =>
    obtain ⟨k, w⟩ := entry
    by_cases h : k = key
    · simp [JSObject.assign, h]
    · simp [JSObject.assign, h, ih]

/-- C7: for a library whose `getCompilerOptions` reads back what
`setCompilerOptions` stored, after `setStrictNullChecks_ monaco b` the stored
options are the earlier ones with `strictNullChecks` assigned: that key holds
`b`, every other key holds what it held before, and a second call with the
same `b` leaves the same options as the first. -/
theorem setStrictNullChecks_read_modify_write {σ ω : Type} (monaco : Monaco σ ω) (b : JSVal)
    (s : σ)
    (hstore : ∀ (o : JSObject) (t : σ),
      (monaco.typescriptDefaults_getCompilerOptions
        (monaco.typescriptDefaults_setCompilerOptions o t).2).1 = o) :
    (monaco.typescriptDefaults_getCompilerOptions (setStrictNullChecks_ monaco b s).2).1 =
      JSObject.assign (monaco.typescriptDefaults_getCompilerOptions s).1 "strictNullChecks" b ∧
    JSObject.get
      (monaco.typescriptDefaults_getCompilerOptions (setStrictNullChecks_ monaco b s).2).1
      "strictNullChecks" = some b ∧
    (∀ key : String, key ≠ "strictNullChecks" →
      JSObject.get
        (monaco.typescriptDefaults_getCompilerOptions (setStrictNullChecks_ monaco b s).2).1 key =
      JSObject.get (monaco.typescriptDefaults_getCompilerOptions s).1 key) ∧
    (monaco.typescriptDefaults_getCompilerOptions
        (setStrictNullChecks_ monaco b (setStrictNullChecks_ monaco b s).2).2).1 =
      (monaco.typescriptDefaults_getCompilerOptions (setStrictNullChecks_ monaco b s).2).1 := by
  have hone : ∀ t : σ,
      (monaco.typescriptDefaults_getCompilerOptions (setStrictNullChecks_ monaco b t).2).1 =
        JSObject.assign (monaco.typescriptDefaults_getCompilerOptions t).1
          "strictNullChecks" b := by
    intro t
    simp only [setStrictNullChecks_]
    exact hstore _ _
  refine ⟨hone s, ?_, ?_, ?_⟩
  · rw [hone s]
    exact JSObject.get_assign_same _ _ _
  · intro key hkey
    rw [hone s]
    exact JSObject.get_assign_other _ _ _ _ hkey
  · rw [hone (setStrictNullChecks_ monaco b s).2, hone s]
    exact JSObject.assign_assign _ _ _

/-- Witness for C7 on the reference library, with options that already hold
`strictNullChecks: false` next to a `target` entry, and `b = true`. -/
theorem setStrictNullChecks_read_modify_write_witness :
    JSObject.get
      ((refMonaco : Monaco (RefState Unit) Unit).typescriptDefaults_getCompilerOptions
        (setStrictNullChecks_ refMonaco (JSVal.bool true)
          { (RefState.empty : RefState Unit) with
            compilerOptions :=
              [("target", JSVal.num 5), ("strictNullChecks", JSVal.bool false)] }).2).1
      "strictNullChecks" = some (JSVal.bool true) :=
  (setStrictNullChecks_read_modify_write refMonaco (JSVal.bool true)
    { (RefState.empty : RefState Unit) with
      compilerOptions := [("target", JSVal.num 5), ("strictNullChecks", JSVal.bool false)] }
    (fun _ _ => rfl)).2.1

/-! ## Markers -/

/-- The markers of one owner among freshly tagged markers of a resource: all of
them for the tagging owner, none for another owner. -/
theorem filter_tagged (owner other uri : String) (ms : List MarkerData) :
    ((ms.map (fun d => ({ owner := owner, resource := uri, data := d } : Marker))).filter
      (fun k => k.resource == uri)).filter (fun k => k.owner == other) =
      if owner = other then
        ms.map (fun d => ({ owner := owner, resource := uri, data := d } : Marker))
      else [] := by
  induction ms with
  | nil => simp
  | cons d rest ih =>
    by_cases h : owner = other
    · simp only [h, if_true] at ih ⊢
      simp [List.filter_cons, ih]
    · simp only [h, if_false] at ih ⊢
      simp only [List.map_cons, List.filter_cons, beq_self_eq_true, if_true]
      simp [h, ih]

/-- After the markers of `(uri, owner)` are dropped, the markers of the resource
that remain for an owner are none for `owner` and all earlier ones for another owner. -/
theorem filter_kept (owner other uri : String) (markers : List Marker) :
    ((markers.filter (fun k => !(k.resource == uri && k.owner == owner))).filter
      (fun k => k.resource == uri)).filter (fun k => k.owner == other) =
      if owner = other then []
      else (markers.filter (fun k => k.resource == uri)).filter (fun k => k.owner == other) := by
  induction markers with
  | nil => simp
  | cons k rest ih =>
    by_cases h : owner = other
    · subst h
      simp only [if_true]
      rw [List.filter_filter, List.filter_filter, List.filter_eq_nil_iff]
      intro a _
      by_cases hr : a.resource = uri <;> by_cases ho : a.owner = owner <;> simp [hr, ho]
    · simp only [h, if_false] at ih ⊢
      by_cases hr : k.resource = uri <;> by_cases ho : k.owner = other <;>
        by_cases hw : k.owner = owner <;>
        simp_all [List.filter_cons]

/-- The markers `getModelMarkers_` reports right after `setModelMarkers_`, on the reference library. -/
theorem getModelMarkers_after_set {ω : Type} (model : Model) (owner : String)
    (ms : List MarkerData) (s : RefState ω) :
    (getModelMarkers_ refMonaco model (setModelMarkers_ refMonaco model owner ms s).2).1 =
      (s.markers.filter (fun k => !(k.resource == model.uri && k.owner == owner)) ++
        ms.map (fun d => ({ owner := owner, resource := model.uri, data := d } : Marker))).filter
        (fun k => k.resource == model.uri) :=
  rfl

/-- C6: on the reference library, for every model, marker list `ms` and distinct
owners `ownerA`, `ownerB`: after `setModelMarkers_ model ownerA ms`, the markers
`getModelMarkers_ model` reports for `ownerA` are exactly `ms` (each tagged with
the owner and the resource of the model), and the markers it reports for
`ownerB` are the ones it reported before the call. -/
theorem setModelMarkers_replaces_owner_only {ω : Type} (model : Model) (ownerA ownerB : String)
    (ms : List MarkerData) (s : RefState ω) (hAB : ownerA ≠ ownerB) :
    ((getModelMarkers_ refMonaco model
        (setModelMarkers_ refMonaco model ownerA ms s).2).1.filter
      (fun k => k.owner == ownerA)) =
      ms.map (fun d => { owner := ownerA, resource := model.uri, data := d }) ∧
    (((getModelMarkers_ refMonaco model
        (setModelMarkers_ refMonaco model ownerA ms s).2).1.filter
      (fun k => k.owner == ownerA)).map Marker.data) = ms ∧
    ((getModelMarkers_ refMonaco model
        (setModelMarkers_ refMonaco model ownerA ms s).2).1.filter
      (fun k => k.owner == ownerB)) =
      ((getModelMarkers_ refMonaco model s).1.filter (fun k => k.owner == ownerB)) := by
  have hA : ((getModelMarkers_ refMonaco model
        (setModelMarkers_ refMonaco model ownerA ms s).2).1.filter
      (fun k => k.owner == ownerA)) =
      ms.map (fun d => { owner := ownerA, resource := model.uri, data := d }) := by
    rw [getModelMarkers_after_set, List.filter_append, List.filter_append,
      filter_kept ownerA ownerA, filter_tagged ownerA ownerA]
    simp
  refine ⟨hA, ?_, ?_⟩
  · have hid : (Marker.data ∘ fun d : MarkerData =>
        ({ owner := ownerA, resource := model.uri, data := d } : Marker)) = id := rfl
    rw [hA, List.map_map, hid, List.map_id]
  · rw [getModelMarkers_after_set, List.filter_append, List.filter_append,
      filter_kept ownerA ownerB, filter_tagged ownerA ownerB]
    simp only [hAB, if_false, List.append_nil]
    rfl

/-- Witness for C6: a model of the resource `file:///Main.purs` carries one
marker of owner `ownerB`; setting one marker for `ownerA` reports that marker
for `ownerA` and still the earlier marker for `ownerB`. -/
theorem setModelMarkers_replaces_owner_only_witness :
    ((getModelMarkers_ refMonaco { ref := 0, uri := "file:///Main.purs" }
        (setModelMarkers_ refMonaco { ref := 0, uri := "file:///Main.purs" } "ownerA"
          [{ severity := 8, message := "type error", startLineNumber := 1, startColumn := 1,
             endLineNumber := 1, endColumn := 5 }]
          { (RefState.empty : RefState Unit) with
            markers := [{ owner := "ownerB", resource := "file:///Main.purs",
                          data := { severity := 4, message := "unused", startLineNumber := 2,
                                    startColumn := 1, endLineNumber := 2, endColumn := 3 } }] }).2).1.filter
      (fun k => k.owner == "ownerB")) =
      [{ owner := "ownerB", resource := "file:///Main.purs",
         data := { severity := 4, message := "unused", startLineNumber := 2,
                   startColumn := 1, endLineNumber := 2, endColumn := 3 } }] :=
  (setModelMarkers_replaces_owner_only { ref := 0, uri := "file:///Main.purs" } "ownerA" "ownerB"
    [{ severity := 8, message := "type error", startLineNumber := 1, startColumn := 1,
       endLineNumber := 1, endColumn := 5 }]
    { (RefState.empty : RefState Unit) with
      markers := [{ owner := "ownerB", resource := "file:///Main.purs",
                    data := { severity := 4, message := "unused", startLineNumber := 2,
                              startColumn := 1, endLineNumber := 2, endColumn := 3 } }] }
    (by decide)).2.2.trans (by decide)

/-! ## Content-change events -/

/-- On the reference library, `onDidChangeContent_` subscribes the two-stage
listener to the model of the editor, after the listeners already there. -/
theorem listenersOf_onDidChangeContent {ω : Type} (editor : Editor) (handler : Handler ω)
    (s : RefState ω) :
    RefState.listenersOf (RefState.getModel editor s).1
        (onDidChangeContent_ refMonaco editor handler s).2 =
      RefState.listenersOf (RefState.getModel editor s).1 s ++ [changeListener handler] := by
  simp [onDidChangeContent_, refMonaco, RefState.onDidChangeContent, RefState.listenersOf,
    RefState.getModel, List.filter_append]

/-- One event after the subscription: the earlier listeners run, then
`handler(event)` is evaluated and the function it returned is called. -/
theorem emitChange_onDidChangeContent {ω : Type} (editor : Editor) (handler : Handler ω)
    (s : RefState ω) (event : JSVal) (u : ω) :
    RefState.emitChange (RefState.getModel editor s).1
        (onDidChangeContent_ refMonaco editor handler s).2 event u =
      ((handler event (RefState.emitChange (RefState.getModel editor s).1 s event u)).1
        (handler event (RefState.emitChange (RefState.getModel editor s).1 s event u)).2).2 := by
  unfold RefState.emitChange
  rw [listenersOf_onDidChangeContent, List.foldl_append]
  rfl

/-- The log the recording handler leaves after a run of two-stage calls: per
event, stage one then stage two, in event order. -/
theorem foldl_recordingHandler (events : List JSVal) (log : List (JSVal × Bool)) :
    events.foldl
        (fun acc event => ((recordingHandler event acc).1 (recordingHandler event acc).2).2) log =
      log ++ events.flatMap (fun event => [(event, false), (event, true)]) := by
  induction events generalizing log with
  | nil => simp
  | cons event rest ih =>
    rw [List.foldl_cons, ih]
    simp [recordingHandler, List.flatMap_cons]

/-- C8: on the reference library, for every editor, handler and finite sequence
of content-change events emitted by the model of the editor after
`onDidChangeContent_ editor handler`: per event, in emission order, the
listeners subscribed earlier run and then the handler is invoked once with the
event payload as the two-stage call `handler(event)()`. On a model without
earlier listeners the recording handler logs, per event and in emission order,
stage one and then stage two, and nothing else. -/
theorem onDidChangeContent_once_per_event {ω : Type} (editor : Editor) (handler : Handler ω)
    (s : RefState ω) (events : List JSVal) (u : ω) :
    RefState.emitAll (RefState.getModel editor s).1
        (onDidChangeContent_ refMonaco editor handler s).2 events u =
      events.foldl
        (fun acc event =>
          ((handler event (RefState.emitChange (RefState.getModel editor s).1 s event acc)).1
            (handler event (RefState.emitChange (RefState.getModel editor s).1 s event acc)).2).2)
        u ∧
    RefState.emitAll
        (RefState.getModel editor (RefState.empty : RefState (List (JSVal × Bool)))).1
        (onDidChangeContent_ refMonaco editor recordingHandler RefState.empty).2 events [] =
      events.flatMap (fun event => [(event, false), (event, true)]) := by
  constructor
  · unfold RefState.emitAll
    congr 1
    funext acc event
    exact emitChange_onDidChangeContent editor handler s event acc
  · unfold RefState.emitAll
    have hstep : (fun (acc : List (JSVal × Bool)) (event : JSVal) =>
        RefState.emitChange
          (RefState.getModel editor (RefState.empty : RefState (List (JSVal × Bool)))).1
          (onDidChangeContent_ refMonaco editor recordingHandler RefState.empty).2 event acc) =
        (fun acc event => ((recordingHandler event acc).1 (recordingHandler event acc).2).2) := by
      funext acc event
      rw [emitChange_onDidChangeContent]
      rfl
    rw [hstep, foldl_recordingHandler]
    simp

/-- An instance of C8: two events on a fresh model are logged as
stage one and stage two of the first, then stage one and stage two of the second. -/
theorem onDidChangeContent_once_per_event_witness :
    RefState.emitAll
        (RefState.getModel { ref := 0 } (RefState.empty : RefState (List (JSVal × Bool)))).1
        (onDidChangeContent_ refMonaco { ref := 0 } recordingHandler RefState.empty).2
        [JSVal.num 1, JSVal.num 2] [] =
      [(JSVal.num 1, false), (JSVal.num 1, true), (JSVal.num 2, false), (JSVal.num 2, true)] :=
  (onDidChangeContent_once_per_event { ref := 0 } recordingHandler RefState.empty
    [JSVal.num 1, JSVal.num 2] []).2

/-! ## Decorations -/

/-- Removing no id leaves the slots as they are. -/
theorem clearSlots_nil (owner : Nat) (i : Nat) (slots : List (Option (Nat × JSVal))) :
    clearSlots owner [] i slots = slots := by
  induction slots generalizing i with
  | nil => rfl
  | cons slot rest ih =>
    cases slot with
    | none => simp [clearSlots, ih]
    | some d =>
      obtain ⟨e, v⟩ := d
      simp [clearSlots, ih]

/-- Removal works slot by slot: on an append it is the removal on each part. -/
theorem clearSlots_append (owner : Nat) (old : List Nat) (i : Nat)
    (xs ys : List (Option (Nat × JSVal))) :
    clearSlots owner old i (xs ++ ys) =
      clearSlots owner old i xs ++ clearSlots owner old (i + xs.length) ys := by
  induction xs generalizing i with
  | nil => simp [clearSlots]
  | cons slot rest ih =>
    have hlen : i + (rest.length + 1) = i + 1 + rest.length := by omega
    cases slot with
    | none => simp [clearSlots, ih, hlen]
    | some d =>
      obtain ⟨e, v⟩ := d
      simp [clearSlots, ih, hlen]

/-- Slots whose ids all lie below the ids to remove are left as they are. -/
theorem clearSlots_below (owner : Nat) (old : List Nat) (i : Nat)
    (slots : List (Option (Nat × JSVal))) (h : ∀ j ∈ old, i + slots.length ≤ j) :
    clearSlots owner old i slots = slots := by
  induction slots generalizing i with
  | nil => rfl
  | cons slot rest ih =>
    have hrest : ∀ j ∈ old, i + 1 + rest.length ≤ j := by
      intro j hj
      have := h j hj
      simp only [List.length_cons] at this
      omega
    cases slot with
    | none => simp [clearSlots, ih (i + 1) hrest]
    | some d =>
      obtain ⟨e, v⟩ := d
      have hi : i ∉ old := by
        intro hmem
        have := h i hmem
        simp only [List.length_cons] at this
        omega
      simp [clearSlots, ih (i + 1) hrest, hi]

/-- Slots of one editor whose ids are all among the ids to remove become empty. -/
theorem clearSlots_all (owner : Nat) (old : List Nat) (i : Nat) (ds : List JSVal)
    (h : ∀ j, i ≤ j → j < i + ds.length → j ∈ old) :
    clearSlots owner old i (ds.map (fun d => some (owner, d))) =
      List.replicate ds.length none := by
  induction ds generalizing i with
  | nil => rfl
  | cons d rest ih =>
    have hrest : ∀ j, i + 1 ≤ j → j < i + 1 + rest.length → j ∈ old := by
      intro j h1 h2
      apply h j (by omega)
      simp only [List.length_cons]
      omega
    have hi : i ∈ old := by
      apply h i (le_refl i)
      simp only [List.length_cons]
      omega
    simp [clearSlots, ih (i + 1) hrest, hi, List.replicate_succ]

/-- On the reference library, adding decorations with no old id appends one
slot per decoration and returns the ids of these slots. -/
theorem setDeltaDecorations_add {ω : Type} (editor : Editor) (ds : List JSVal) (s : RefState ω) :
    setDeltaDecorations_ refMonaco editor [] ds s =
      (List.range' s.decorations.length ds.length,
        { s with decorations := s.decorations ++ ds.map (fun d => some (editor.ref, d)) }) := by
  simp [setDeltaDecorations_, refMonaco, RefState.deltaDecorations, clearSlots_nil]

/-- On the reference library, removing the ids just returned empties exactly the
slots just added. -/
theorem setDeltaDecorations_remove {ω : Type} (editor : Editor) (ds : List JSVal)
    (s : RefState ω) :
    (setDeltaDecorations_ refMonaco editor (setDeltaDecorations_ refMonaco editor [] ds s).1 []
        (setDeltaDecorations_ refMonaco editor [] ds s).2).2.decorations =
      s.decorations ++ List.replicate ds.length none := by
  rw [setDeltaDecorations_add]
  simp only [setDeltaDecorations_, refMonaco, RefState.deltaDecorations, List.map_nil,
    List.append_nil]
  rw [clearSlots_append, clearSlots_below, Nat.zero_add, clearSlots_all]
  · intro j h1 h2
    exact List.mem_range'_1.mpr ⟨h1, h2⟩
  · intro j hj
    have := (List.mem_range'_1.mp hj).1
    omega

/-- The active decorations of an editor in a slot list followed by another. -/
theorem activeDecorations_append {ω : Type} (editor : Editor) (s : RefState ω)
    (extra : List (Option (Nat × JSVal))) :
    RefState.activeDecorations editor { s with decorations := s.decorations ++ extra } =
      RefState.activeDecorations editor s +
        RefState.activeDecorations editor { s with decorations := extra } := by
  simp [RefState.activeDecorations, List.filter_append]

/-- C9 as stated fails for an editor that already has an active decoration: on
the reference library, after adding one decoration and removing it through the
returned id, editor 0 is back at one active decoration, not zero. -/
theorem setDeltaDecorations_count_counterexample :
    RefState.activeDecorations { ref := 0 }
      { (RefState.empty : RefState Unit) with decorations := [some (0, JSVal.str "squiggle")] }
      = 1 ∧
    RefState.activeDecorations { ref := 0 }
      (setDeltaDecorations_ refMonaco { ref := 0 }
        (setDeltaDecorations_ refMonaco { ref := 0 } [] [JSVal.str "highlight"]
          { (RefState.empty : RefState Unit) with
            decorations := [some (0, JSVal.str "squiggle")] }).1 []
        (setDeltaDecorations_ refMonaco { ref := 0 } [] [JSVal.str "highlight"]
          { (RefState.empty : RefState Unit) with
            decorations := [some (0, JSVal.str "squiggle")] }).2).2 ≠ 0 := by
  decide

/-- C9 (amended): on the reference library, for every editor and decoration list
`ds`, `setDeltaDecorations_ editor [] ds` returns as many ids as `ds` has
decorations and raises the active decoration count of the editor by that
number; `setDeltaDecorations_ editor ids []` with the returned ids brings the
count back to what it was before the first call, which is zero when the editor
had no active decoration. For every library the facade passes the old and new
lists on in that order and returns the result of the editor unchanged. -/
theorem setDeltaDecorations_add_then_remove {ω σ₂ ω₂ : Type} (editor : Editor) (ds : List JSVal)
    (s : RefState ω) (monaco : Monaco σ₂ ω₂) (editor₂ : Editor) (oldDecorations : List Nat)
    (newDecorations : List JSVal) (t : σ₂) :
    (setDeltaDecorations_ refMonaco editor [] ds s).1.length = ds.length ∧
    RefState.activeDecorations editor (setDeltaDecorations_ refMonaco editor [] ds s).2 =
      RefState.activeDecorations editor s + ds.length ∧
    RefState.activeDecorations editor
      (setDeltaDecorations_ refMonaco editor (setDeltaDecorations_ refMonaco editor [] ds s).1 []
        (setDeltaDecorations_ refMonaco editor [] ds s).2).2 =
      RefState.activeDecorations editor s ∧
    (RefState.activeDecorations editor s = 0 →
      RefState.activeDecorations editor
        (setDeltaDecorations_ refMonaco editor (setDeltaDecorations_ refMonaco editor [] ds s).1 []
          (setDeltaDecorations_ refMonaco editor [] ds s).2).2 = 0) ∧
    setDeltaDecorations_ monaco editor₂ oldDecorations newDecorations t =
      monaco.deltaDecorations editor₂ oldDecorations newDecorations t := by
  have hback : RefState.activeDecorations editor
      (setDeltaDecorations_ refMonaco editor (setDeltaDecorations_ refMonaco editor [] ds s).1 []
        (setDeltaDecorations_ refMonaco editor [] ds s).2).2 =
      RefState.activeDecorations editor s := by
    unfold RefState.activeDecorations
    rw [setDeltaDecorations_remove, List.filter_append, List.filter_replicate]
    simp
  refine ⟨?_, ?_, hback, ?_, rfl⟩
  · rw [setDeltaDecorations_add]
    simp
  · rw [setDeltaDecorations_add, activeDecorations_append]
    simp [RefState.activeDecorations, List.filter_map, Function.comp_def]
  · intro h0
    rw [hback, h0]

/-- Witness for C9 (amended): an editor without decorations gets two, the call
returns two ids, and removing them leaves the editor with no active decoration. -/
theorem setDeltaDecorations_add_then_remove_witness :
    (setDeltaDecorations_ refMonaco { ref := 0 } []
        [JSVal.str "highlight", JSVal.str "glyph"] (RefState.empty : RefState Unit)).1 = [0, 1] ∧
    RefState.activeDecorations { ref := 0 }
      (setDeltaDecorations_ refMonaco { ref := 0 }
        (setDeltaDecorations_ refMonaco { ref := 0 } []
          [JSVal.str "highlight", JSVal.str "glyph"] (RefState.empty : RefState Unit)).1 []
        (setDeltaDecorations_ refMonaco { ref := 0 } []
          [JSVal.str "highlight", JSVal.str "glyph"] (RefState.empty : RefState Unit)).2).2 = 0 :=
  ⟨by decide,
    (setDeltaDecorations_add_then_remove { ref := 0 } [JSVal.str "highlight", JSVal.str "glyph"]
      (RefState.empty : RefState Unit) (inertMonaco : Monaco Unit Unit) { ref := 0 } [] []
      ()).2.2.2.1 (by decide)⟩

end MonacoFacade
